import Mathlib

/-!
USB transfer engine of the CAN translator (src/pic32/usbutil.cpp)

A shallow embedding of `processUsbSendQueue`, `armForRead` and `readFromHost`.

* The Microchip `USBDevice` object (`usbDevice->device`) is an external
  collaborator.  It is embedded as a state machine over an arbitrary hardware
  state `σ`: every call takes the hardware state and returns the next one, so
  the answer of `HandleBusy` may change from poll to poll.
* Every call that crosses the boundary of the firmware (`HandleBusy`,
  `GenWrite`, `GenRead`, the processing callback) is appended to a trace.
* `while` loops are recursions on a fuel argument; running out of fuel is the
  fault `outOfFuel`, which stands for "has not returned yet".
-/

namespace OpenXC

/-- One `uint8_t`. -/
abbrev Byte := Fin 256

/-- A `USB_HANDLE` as returned by `GenRead` and `GenWrite`. -/
abbrev Handle := Nat

/-! ## Byte queue -/

/-- Modelled from the spec: the byte queue of section 4.5 (`queue.h`, which
defines `QUEUE_INIT`, `QUEUE_EMPTY`, `QUEUE_PUSH` and `QUEUE_POP`, is not among
the sources).  A fixed-capacity FIFO of bytes; the ring indices are abstracted
to the list of queued bytes, oldest first. -/
structure ByteQueue where
  elements : List Byte
  capacity : Nat
deriving DecidableEq

/-- Modelled from the spec: `init()` of the byte queue resets it to empty. -/
def QUEUE_INIT (q : ByteQueue) : ByteQueue :=
  { q with elements := [] }

/-- Modelled from the spec: `is_empty()` of the byte queue. -/
def QUEUE_EMPTY (q : ByteQueue) : Bool :=
  q.elements.isEmpty

/-- Modelled from the spec: `is_full()` of the byte queue. -/
def QUEUE_FULL (q : ByteQueue) : Bool :=
  decide (q.capacity ≤ q.elements.length)

/-- Modelled from the spec: `push(byte)` of the byte queue, false iff the queue
is full, in which case the queue is unchanged. -/
def QUEUE_PUSH (q : ByteQueue) (b : Byte) : Bool × ByteQueue :=
  if QUEUE_FULL q then (false, q)
  else (true, { q with elements := q.elements ++ [b] })

/-- Modelled from the spec: `pop()` of the byte queue, FIFO; popping an empty
queue is the hazard of section 4.5 and yields `none`. -/
def QUEUE_POP (q : ByteQueue) : Option (Byte × ByteQueue) :=
  match q.elements with
  | [] => none
  | b :: rest => some (b, { q with elements := rest })

/-! ## Transport, device and trace -/

/-- Calls that leave the firmware, in the order they are made. -/
inductive Event where
  | HandleBusy (handle : Handle) (busy : Bool)
  | GenWrite (endpoint : Nat) (payload : List Byte)
  | GenRead (endpoint : Nat) (length : Nat)
  | callback (snapshot : List Byte)
deriving DecidableEq

/-- The Microchip `USBDevice` object behind `usbDevice->device`, reduced to
the three methods the transfer engine calls (its class is not among the
sources).  `σ` is the state of the peripheral; each method returns its C
result together with the next state. -/
structure USBDevice (σ : Type) where
  HandleBusy : Handle → σ → Bool × σ
  GenWrite : Nat → List Byte → σ → Handle × σ
  GenRead : Nat → Nat → σ → Handle × σ

/-- The fields of `struct UsbDevice` that `usbutil.cpp` reads or writes
(`usbutil.h`, which declares the struct, is not among the sources).  The
receive buffer is the memory behind `usbDevice->receiveBuffer`, indexed from
its first byte. -/
structure UsbDevice where
  configured : Bool
  inEndpoint : Nat
  outEndpoint : Nat
  outEndpointSize : Nat
  sendQueue : ByteQueue
  receiveQueue : ByteQueue
  deviceToHostHandle : Handle
  hostToDeviceHandle : Handle
  receiveBuffer : Nat → Byte

/-- The peripheral state together with the trace of calls made so far. -/
structure World (σ : Type) where
  hw : σ
  trace : List Event

/-- Ways in which a run fails to produce a result. -/
inductive Fault where
  | outOfFuel
  | popEmpty
  | bufferOverrun
deriving DecidableEq

/-- How the busy-wait at the head of the drain loop ends. -/
inductive Wait where
  | ready
  | bail
deriving DecidableEq

/-- How `processUsbSendQueue` returns: the `while` condition failed, or the
early `return` of line 58 was taken. -/
inductive Exit where
  | drained
  | bailed
deriving DecidableEq

/-- The constant `USB_PACKET_SIZE`, defined as 64 on line 5. -/
def USB_PACKET_SIZE : Nat := 64

variable {σ : Type}

/-- One call of `device.HandleBusy(handle)`. -/
def pollBusy (t : USBDevice σ) (handle : Handle) (w : World σ) : Bool × World σ :=
  ((t.HandleBusy handle w.hw).1,
   { hw := (t.HandleBusy handle w.hw).2,
     trace := w.trace ++ [Event.HandleBusy handle (t.HandleBusy handle w.hw).1] })

/-- One call of `device.GenWrite(endpoint, data, length)`. -/
def genWrite (t : USBDevice σ) (endpoint : Nat) (payload : List Byte) (w : World σ) :
    Handle × World σ :=
  ((t.GenWrite endpoint payload w.hw).1,
   { hw := (t.GenWrite endpoint payload w.hw).2,
     trace := w.trace ++ [Event.GenWrite endpoint payload] })

/-- One call of `device.GenRead(endpoint, buffer, length)`. -/
def genRead (t : USBDevice σ) (endpoint : Nat) (length : Nat) (w : World σ) :
    Handle × World σ :=
  ((t.GenRead endpoint length w.hw).1,
   { hw := (t.GenRead endpoint length w.hw).2,
     trace := w.trace ++ [Event.GenRead endpoint length] })

/-! ## processUsbSendQueue -/

/-- Lines 50-60: `int i = 0; while(configured && HandleBusy(deviceToHostHandle))
{ ++i; if(i > 50000) return; }`.  The `&&` short-circuits, so an unconfigured
device is not polled. -/
def waitForHost (t : USBDevice σ) (dev : UsbDevice) :
    Nat → Nat → World σ → Except Fault (Wait × World σ)
  | 0, _, _ => .error .outOfFuel
  | fuel + 1, i, w =>
    if dev.configured then
      if (pollBusy t dev.deviceToHostHandle w).1 then
        if i + 1 > 50000 then .ok (.bail, (pollBusy t dev.deviceToHostHandle w).2)
        else waitForHost t dev fuel (i + 1) (pollBusy t dev.deviceToHostHandle w).2
      else .ok (.ready, (pollBusy t dev.deviceToHostHandle w).2)
    else .ok (.ready, w)

/-- Lines 62-66: `while(!QUEUE_EMPTY(sendQueue) && byteCount < 64)
sendBuffer[byteCount++] = QUEUE_POP(sendQueue);`.  The scratch buffer is an
array of `USB_SEND_BUFFER_SIZE` bytes, here the length of `sendBuffer`; a store
past its end is the fault `bufferOverrun`. -/
def fillSendBuffer : Nat → ByteQueue → Nat → List Byte →
    Except Fault (ByteQueue × Nat × List Byte)
  | 0, _, _, _ => .error .outOfFuel
  | fuel + 1, q, byteCount, sendBuffer =>
    if !QUEUE_EMPTY q && decide (byteCount < 64) then
      match QUEUE_POP q with
      | none => .error .popEmpty
      | some (b, q1) =>
        if byteCount < sendBuffer.length then
          fillSendBuffer fuel q1 (byteCount + 1) (sendBuffer.set byteCount b)
        else .error .bufferOverrun
    else .ok (q, byteCount, sendBuffer)

/-- Line 70: `while(HandleBusy(deviceToHostHandle));`. -/
def spinWhileBusy (t : USBDevice σ) (handle : Handle) :
    Nat → World σ → Except Fault (World σ)
  | 0, _ => .error .outOfFuel
  | fuel + 1, w =>
    if (pollBusy t handle w).1 then spinWhileBusy t handle fuel (pollBusy t handle w).2
    else .ok (pollBusy t handle w).2

/-- Lines 68-75: the scratch buffer is written out in chunks of at most
`USB_PACKET_SIZE` bytes; `GenWrite` returns the new device-to-host handle.
`spin` is the fuel of the inner wait. -/
def sendChunks (t : USBDevice σ) (inEndpoint : Nat) (sendBuffer : List Byte)
    (byteCount : Nat) (spin : Nat) :
    Nat → Nat → Handle → World σ → Except Fault (Handle × World σ)
  | 0, _, _, _ => .error .outOfFuel
  | fuel + 1, nextByteIndex, handle, w =>
    if nextByteIndex < byteCount then
      match spinWhileBusy t handle spin w with
      | .error e => .error e
      | .ok w1 =>
        sendChunks t inEndpoint sendBuffer byteCount spin fuel
          (nextByteIndex + min USB_PACKET_SIZE (byteCount - nextByteIndex))
          (genWrite t inEndpoint
            ((sendBuffer.drop nextByteIndex).take
              (min USB_PACKET_SIZE (byteCount - nextByteIndex))) w1).1
          (genWrite t inEndpoint
            ((sendBuffer.drop nextByteIndex).take
              (min USB_PACKET_SIZE (byteCount - nextByteIndex))) w1).2
    else .ok (handle, w)

/-- Lines 44-76: the outer `while(!QUEUE_EMPTY(sendQueue))`.  `size` is
`USB_SEND_BUFFER_SIZE` (declared in `usbutil.h`, not among the sources);
`fuel` bounds each inner loop and the first `Nat` argument bounds the outer
one.  The cells of the fresh scratch buffer are never read before they are
stored to; they start as zero. -/
def drainLoop (size : Nat) (t : USBDevice σ) (fuel : Nat) :
    Nat → UsbDevice → World σ → Except Fault (Exit × UsbDevice × World σ)
  | 0, _, _ => .error .outOfFuel
  | n + 1, dev, w =>
    if !QUEUE_EMPTY dev.sendQueue then
      match waitForHost t dev fuel 0 w with
      | .error e => .error e
      | .ok (.bail, w1) => .ok (.bailed, dev, w1)
      | .ok (.ready, w1) =>
        match fillSendBuffer fuel dev.sendQueue 0 (List.replicate size 0) with
        | .error e => .error e
        | .ok (q1, byteCount, sendBuffer) =>
          match sendChunks t dev.inEndpoint sendBuffer byteCount fuel fuel 0
              dev.deviceToHostHandle w1 with
          | .error e => .error e
          | .ok (h, w2) =>
            drainLoop size t fuel n
              { dev with sendQueue := q1, deviceToHostHandle := h } w2
    else .ok (.drained, dev, w)

/-- The function `void processUsbSendQueue(UsbDevice* usbDevice)`, lines 43-77. -/
def processUsbSendQueue (size : Nat) (t : USBDevice σ) (fuel : Nat)
    (dev : UsbDevice) (w : World σ) : Except Fault (Exit × UsbDevice × World σ) :=
  drainLoop size t fuel fuel dev w

/-! ## readFromHost -/

/-- Modelled from the spec: `processQueue` (`buffers.h`, not among the
sources) invokes the processing callback against the contents of the queue; a
true return value discards the queued bytes. -/
def processQueue (q : ByteQueue) (callback : List Byte → Bool) (w : World σ) :
    ByteQueue × World σ :=
  (if callback q.elements then QUEUE_INIT q else q,
   { w with trace := w.trace ++ [Event.callback q.elements] })

/-- Lines 88-92: `buffer[0] = 0; hostToDeviceHandle = GenRead(outEndpoint,
buffer, outEndpointSize);`.  The only caller passes the device's own receive
buffer. -/
def armForRead (t : USBDevice σ) (dev : UsbDevice) (w : World σ) : UsbDevice × World σ :=
  ({ dev with
      receiveBuffer := Function.update dev.receiveBuffer 0 0
      hostToDeviceHandle := (genRead t dev.outEndpoint dev.outEndpointSize w).1 },
   (genRead t dev.outEndpoint dev.outEndpointSize w).2)

/-- Lines 98-103: `for(int i = 0; i < outEndpointSize; i++)
QUEUE_PUSH(receiveQueue, receiveBuffer[i])`; a failed push is only logged. -/
def pushReceived (dev : UsbDevice) : ByteQueue :=
  (List.range dev.outEndpointSize).foldl
    (fun q i => (QUEUE_PUSH q (dev.receiveBuffer i)).2) dev.receiveQueue

/-- The function `void readFromHost(UsbDevice* usbDevice, bool (*callback)(uint8_t*))`,
lines 94-108. -/
def readFromHost (t : USBDevice σ) (dev : UsbDevice) (callback : List Byte → Bool)
    (w : World σ) : UsbDevice × World σ :=
  if !(pollBusy t dev.hostToDeviceHandle w).1 then
    if dev.receiveBuffer 0 ≠ 0 then
      armForRead t
        { dev with receiveQueue :=
            (processQueue (pushReceived dev) callback
              (pollBusy t dev.hostToDeviceHandle w).2).1 }
        (processQueue (pushReceived dev) callback
          (pollBusy t dev.hostToDeviceHandle w).2).2
    else armForRead t dev (pollBusy t dev.hostToDeviceHandle w).2
  else (dev, (pollBusy t dev.hostToDeviceHandle w).2)

/-! ## Reading a trace -/

/-- The payloads of the `GenWrite` calls of a trace, in call order. -/
def writes : List Event → List (List Byte)
  | [] => []
  | Event.GenWrite _ p :: es => p :: writes es
  | _ :: es => writes es

/-- The number of `HandleBusy` calls of a trace. -/
def polls : List Event → Nat
  | [] => 0
  | Event.HandleBusy _ _ :: es => polls es + 1
  | _ :: es => polls es

/-- A transport that is never busy and ignores what is written to it. -/
def idleDevice : USBDevice Unit where
  HandleBusy := fun _ s => (false, s)
  GenWrite := fun _ _ s => (7, s)
  GenRead := fun _ _ s => (9, s)

/-- A transport whose every handle is busy at every poll. -/
def stuckDevice : USBDevice Unit where
  HandleBusy := fun _ s => (true, s)
  GenWrite := fun _ _ s => (7, s)
  GenRead := fun _ _ s => (9, s)

/-- A host that reads one packet and then stops reading: a handle is busy
once something has been written.  The state counts the writes. -/
def oneShotDevice : USBDevice Nat where
  HandleBusy := fun _ s => (decide (0 < s), s)
  GenWrite := fun _ _ s => (7, s + 1)
  GenRead := fun _ _ s => (9, s)

/-- A device state with the given flag and send queue; the rest is fixed. -/
def sampleDevice (configured : Bool) (q : List Byte) : UsbDevice where
  configured := configured
  inEndpoint := 1
  outEndpoint := 2
  outEndpointSize := 4
  sendQueue := { elements := q, capacity := 256 }
  receiveQueue := { elements := [], capacity := 3 }
  deviceToHostHandle := 0
  hostToDeviceHandle := 0
  receiveBuffer := fun i => [5, 6, 7, 8].getD i 0

/-- The sample device after the host has left a packet whose first byte is
zero in the receive buffer. -/
def zeroFirstDevice : UsbDevice :=
  { sampleDevice true [] with receiveBuffer := fun i => [0, 6, 7, 8].getD i 0 }

/-! ## Lemmas on traces and on the wait loops -/

theorem writes_append (a b : List Event) : writes (a ++ b) = writes a ++ writes b := by
  induction a with
  | nil => rfl
  | cons e es ih => cases e <;> simp [writes, ih]

theorem polls_append (a b : List Event) : polls (a ++ b) = polls a + polls b := by
  induction a with
  | nil => simp [polls]
  | cons e es ih => cases e <;> simp [polls, ih]; omega

theorem polls_replicate (n : Nat) (h : Handle) (b : Bool) :
    polls (List.replicate n (Event.HandleBusy h b)) = n := by
  induction n with
  | zero => rfl
  | succ n ih => simp [List.replicate_succ, polls, ih]

theorem writes_replicate (n : Nat) (h : Handle) (b : Bool) :
    writes (List.replicate n (Event.HandleBusy h b)) = [] := by
  induction n with
  | zero => rfl
  | succ n ih => simp [List.replicate_succ, writes, ih]

theorem waitForHost_unconfigured (t : USBDevice σ) (dev : UsbDevice)
    (hc : dev.configured = false) (fuel i : Nat) (w : World σ) :
    waitForHost t dev (fuel + 1) i w = .ok (.ready, w) := by
  simp [waitForHost, hc]

theorem waitForHost_idle (t : USBDevice σ) (dev : UsbDevice)
    (hc : dev.configured = true) (fuel i : Nat) (w : World σ)
    (hidle : (t.HandleBusy dev.deviceToHostHandle w.hw).1 = false) :
    waitForHost t dev (fuel + 1) i w = .ok (.ready, (pollBusy t dev.deviceToHostHandle w).2) := by
  simp [waitForHost, hc, pollBusy, hidle]

theorem waitForHost_stuck (t : USBDevice σ) (dev : UsbDevice) (P : σ → Prop)
    (hP : ∀ s, P s → (t.HandleBusy dev.deviceToHostHandle s).1 = true ∧
      P (t.HandleBusy dev.deviceToHostHandle s).2)
    (hc : dev.configured = true) :
    ∀ (fuel i : Nat) (w : World σ), P w.hw → i ≤ 50000 → 50001 ≤ i + fuel →
      ∃ w1, waitForHost t dev fuel i w = .ok (.bail, w1) ∧ P w1.hw ∧
        w1.trace = w.trace ++
          List.replicate (50001 - i) (Event.HandleBusy dev.deviceToHostHandle true) := by
  intro fuel
  induction fuel with
  | zero => intro i w _ hi hf; omega
  | succ fuel ih =>
    intro i w hw hi hf
    have hb := (hP w.hw hw).1
    have hn := (hP w.hw hw).2
    by_cases hlast : i = 50000
    · subst hlast
      refine ⟨(pollBusy t dev.deviceToHostHandle w).2, ?_, hn, ?_⟩
      · simp [waitForHost, hc, pollBusy, hb]
      · simp [pollBusy, hb]
    · obtain ⟨w1, h1, h2, h3⟩ := ih (i + 1) (pollBusy t dev.deviceToHostHandle w).2 hn
        (by omega) (by omega)
      refine ⟨w1, ?_, h2, ?_⟩
      · have hlt : ¬ (50000 < i + 1) := by omega
        simp only [waitForHost, hc, if_true]
        simp only [pollBusy, hb, if_true, hlt, if_false]
        simpa [pollBusy, hb] using h1
      · rw [h3]
        have : 50001 - i = (50001 - (i + 1)) + 1 := by omega
        rw [this, List.replicate_succ]
        simp [pollBusy, hb]

theorem waitForHost_writes (t : USBDevice σ) (dev : UsbDevice) :
    ∀ (fuel i : Nat) (w : World σ) (x : Wait) (w1 : World σ),
      waitForHost t dev fuel i w = .ok (x, w1) → writes w1.trace = writes w.trace := by
  intro fuel
  induction fuel with
  | zero => intro i w x w1 h; simp [waitForHost] at h
  | succ fuel ih =>
    intro i w x w1 h
    simp only [waitForHost] at h
    split at h
    · split at h
      · split at h
        · simp only [Except.ok.injEq, Prod.mk.injEq] at h
          rw [← h.2]; simp [pollBusy, writes_append, writes]
        · rw [ih _ _ _ _ h]; simp [pollBusy, writes_append, writes]
      · simp only [Except.ok.injEq, Prod.mk.injEq] at h
        rw [← h.2]; simp [pollBusy, writes_append, writes]
    · simp only [Except.ok.injEq, Prod.mk.injEq] at h
      rw [← h.2]

theorem waitForHost_fault (t : USBDevice σ) (dev : UsbDevice) :
    ∀ (fuel i : Nat) (w : World σ) (e : Fault),
      waitForHost t dev fuel i w = .error e → e = .outOfFuel := by
  intro fuel
  induction fuel with
  | zero => intro i w e h; simp [waitForHost] at h; exact h.symm
  | succ fuel ih =>
    intro i w e h
    simp only [waitForHost] at h
    split at h
    · split at h
      · split at h
        · simp at h
        · exact ih _ _ _ h
      · simp at h
    · simp at h

theorem spinWhileBusy_idle (t : USBDevice σ) (handle : Handle) (fuel : Nat) (w : World σ)
    (hidle : (t.HandleBusy handle w.hw).1 = false) :
    spinWhileBusy t handle (fuel + 1) w = .ok (pollBusy t handle w).2 := by
  simp [spinWhileBusy, pollBusy, hidle]

theorem spinWhileBusy_stuck (t : USBDevice σ) (handle : Handle) (P : σ → Prop)
    (hP : ∀ s, P s → (t.HandleBusy handle s).1 = true ∧ P (t.HandleBusy handle s).2) :
    ∀ (fuel : Nat) (w : World σ), P w.hw →
      spinWhileBusy t handle fuel w = .error .outOfFuel := by
  intro fuel
  induction fuel with
  | zero => intro w _; rfl
  | succ fuel ih =>
    intro w hw
    have hb := (hP w.hw hw).1
    have hn := (hP w.hw hw).2
    simp only [spinWhileBusy]
    simp only [pollBusy, hb, if_true]
    exact ih _ hn

theorem spinWhileBusy_writes (t : USBDevice σ) (handle : Handle) :
    ∀ (fuel : Nat) (w w1 : World σ),
      spinWhileBusy t handle fuel w = .ok w1 → writes w1.trace = writes w.trace := by
  intro fuel
  induction fuel with
  | zero => intro w w1 h; simp [spinWhileBusy] at h
  | succ fuel ih =>
    intro w w1 h
    simp only [spinWhileBusy] at h
    split at h
    · rw [ih _ _ h]; simp [pollBusy, writes_append, writes]
    · simp only [Except.ok.injEq] at h
      rw [← h]; simp [pollBusy, writes_append, writes]

theorem spinWhileBusy_fault (t : USBDevice σ) (handle : Handle) :
    ∀ (fuel : Nat) (w : World σ) (e : Fault),
      spinWhileBusy t handle fuel w = .error e → e = .outOfFuel := by
  intro fuel
  induction fuel with
  | zero => intro w e h; simp [spinWhileBusy] at h; exact h.symm
  | succ fuel ih =>
    intro w e h
    simp only [spinWhileBusy] at h
    split at h
    · exact ih _ _ h
    · simp at h

/-! ## Lemmas on the drain loop -/

theorem fillSendBuffer_spec :
    ∀ (fuel : Nat) (q : ByteQueue) (k : Nat) (buf : List Byte), k ≤ 64 → 64 ≤ buf.length →
      (fillSendBuffer fuel q k buf = .error .outOfFuel ∧
        fuel ≤ min (64 - k) q.elements.length) ∨
      ∃ buf1, fillSendBuffer fuel q k buf =
          .ok ({ q with elements := q.elements.drop (min (64 - k) q.elements.length) },
               k + min (64 - k) q.elements.length, buf1) ∧
        buf1.length = buf.length ∧
        buf1.take (k + min (64 - k) q.elements.length) =
          buf.take k ++ q.elements.take (min (64 - k) q.elements.length) := by
  intro fuel
  induction fuel with
  | zero => intro q k buf _ _; left; exact ⟨rfl, Nat.zero_le _⟩
  | succ fuel ih =>
    intro q k buf hk hbuf
    obtain ⟨els, cap⟩ := q
    cases els with
    | nil =>
      right
      exact ⟨buf, by simp [fillSendBuffer, QUEUE_EMPTY], rfl, by simp⟩
    | cons b rest =>
      by_cases hk64 : k = 64
      · subst hk64
        right
        exact ⟨buf, by simp [fillSendBuffer, QUEUE_EMPTY], rfl, by simp⟩
      · have hlt : k < 64 := by omega
        have hkb : k < buf.length := by omega
        have hstep : fillSendBuffer (fuel + 1) ⟨b :: rest, cap⟩ k buf =
            fillSendBuffer fuel ⟨rest, cap⟩ (k + 1) (buf.set k b) := by
          simp [fillSendBuffer, QUEUE_EMPTY, QUEUE_POP, hlt, hkb]
        have hmin : min (64 - k) (b :: rest).length = min (64 - (k + 1)) rest.length + 1 := by
          simp only [List.length_cons]; omega
        rcases ih ⟨rest, cap⟩ (k + 1) (buf.set k b) (by omega) (by simpa using hbuf) with
          ⟨h1, h2⟩ | ⟨buf1, h1, h2, h3⟩
        · left
          refine ⟨by rw [hstep]; exact h1, ?_⟩
          rw [hmin]; simpa using h2
        · right
          refine ⟨buf1, ?_, by simpa using h2, ?_⟩
          · rw [hstep, h1, hmin]
            simp [Nat.add_assoc, Nat.add_comm 1]
          · rw [hmin]
            have e1 : k + (min (64 - (k + 1)) rest.length + 1) =
                k + 1 + min (64 - (k + 1)) rest.length := by omega
            rw [e1, h3]
            simp only [ByteQueue.elements]
            rw [List.take_succ_cons, List.take_succ]
            have e2 : (buf.set k b).take k = buf.take k := by
              rw [List.set_take]
              exact List.set_eq_of_length_le (by simp)
            simp [List.getElem?_set, hkb, e2]

theorem sendChunks_spec (t : USBDevice σ) (ep : Nat) (buf : List Byte) (bc spin : Nat)
    (hbc : bc ≤ 64) (fuel : Nat) (h : Handle) (w : World σ) :
    sendChunks t ep buf bc spin fuel 0 h w = .error .outOfFuel ∨
    ∃ h1 w1, sendChunks t ep buf bc spin fuel 0 h w = .ok (h1, w1) ∧
      writes w1.trace = writes w.trace ++ (if 0 < bc then [buf.take bc] else []) := by
  cases fuel with
  | zero => left; rfl
  | succ fuel =>
    by_cases hpos : 0 < bc
    · have hmin : min USB_PACKET_SIZE (bc - 0) = bc := by
        simp only [USB_PACKET_SIZE]; omega
      cases hs : spinWhileBusy t h spin w with
      | error e =>
        left
        have he := spinWhileBusy_fault t h spin w e hs
        subst he
        simp [sendChunks, hpos, hs]
      | ok w1 =>
        cases fuel with
        | zero =>
          left
          simp [sendChunks, hpos, hs]
        | succ fuel =>
          right
          refine ⟨(genWrite t ep (buf.take bc) w1).1, (genWrite t ep (buf.take bc) w1).2,
            ?_, ?_⟩
          · simp only [sendChunks, hpos, if_true, hs, hmin, Nat.zero_add, Nat.lt_irrefl,
              if_false, List.drop_zero]
          · simp [genWrite, writes_append, writes, hpos, spinWhileBusy_writes t h spin w w1 hs]
    · right
      exact ⟨h, w, by simp [sendChunks, hpos], by simp [hpos]⟩

theorem sendChunks_idle (t : USBDevice σ) (ep : Nat) (buf : List Byte)
    (bc spin fuel : Nat) (hpos : 0 < bc) (hbc : bc ≤ 64) (h : Handle) (w : World σ)
    (hidle : (t.HandleBusy h w.hw).1 = false) :
    sendChunks t ep buf bc (spin + 1) (fuel + 2) 0 h w =
      .ok ((genWrite t ep (buf.take bc) (pollBusy t h w).2).1,
           (genWrite t ep (buf.take bc) (pollBusy t h w).2).2) := by
  have hmin : min USB_PACKET_SIZE (bc - 0) = bc := by
    simp only [USB_PACKET_SIZE]; omega
  simp only [sendChunks, hpos, if_true, spinWhileBusy_idle t h spin w hidle, hmin,
    Nat.zero_add, Nat.lt_irrefl, if_false, List.drop_zero]

theorem drainLoop_spec (size : Nat) (hsz : 64 ≤ size) (t : USBDevice σ) (fuel : Nat) :
    ∀ (n : Nat) (dev : UsbDevice) (w : World σ),
      drainLoop size t fuel n dev w = .error .outOfFuel ∨
      ∃ e dev1 w1 ws, drainLoop size t fuel n dev w = .ok (e, dev1, w1) ∧
        writes w1.trace = writes w.trace ++ ws ∧
        ws.flatten ++ dev1.sendQueue.elements = dev.sendQueue.elements ∧
        (∀ p ∈ ws, 1 ≤ p.length ∧ p.length ≤ 64) ∧
        (e = .drained → dev1.sendQueue.elements = []) ∧
        (dev.sendQueue.elements = [] → e = .drained ∧ dev1 = dev ∧ w1 = w) := by
  intro n
  induction n with
  | zero => intro dev w; left; rfl
  | succ n ih =>
    intro dev w
    by_cases hq : dev.sendQueue.elements = []
    · right
      refine ⟨.drained, dev, w, [], ?_, by simp, by simp [hq], by simp, fun _ => hq,
        fun _ => ⟨rfl, rfl, rfl⟩⟩
      simp [drainLoop, QUEUE_EMPTY, hq]
    · have hne : (!QUEUE_EMPTY dev.sendQueue) = true := by
        simp [QUEUE_EMPTY, hq]
      cases hw : waitForHost t dev fuel 0 w with
      | error e =>
        left
        have he := waitForHost_fault t dev fuel 0 w e hw
        subst he
        simp only [drainLoop, hne, if_true, hw]
      | ok r =>
        obtain ⟨x, w1⟩ := r
        have hw1 := waitForHost_writes t dev fuel 0 w x w1 hw
        cases x with
        | bail =>
          right
          refine ⟨.bailed, dev, w1, [], ?_, by simp [hw1], by simp, by simp,
            fun h => (by cases h), fun h => absurd h hq⟩
          simp only [drainLoop, hne, if_true, hw]
        | ready =>
          rcases fillSendBuffer_spec fuel dev.sendQueue 0 (List.replicate size 0)
              (by omega) (by simpa using hsz) with ⟨hf, _⟩ | ⟨buf1, hf, _, hbuf⟩
          · left
            simp only [drainLoop, hne, if_true, hw, hf]
          · simp only [Nat.sub_zero, Nat.zero_add, List.take_zero, List.nil_append] at hf hbuf
            have hm64 : min 64 dev.sendQueue.elements.length ≤ 64 := Nat.min_le_left _ _
            have hmpos : 0 < min 64 dev.sendQueue.elements.length := by
              have := List.length_pos.mpr hq
              omega
            rcases sendChunks_spec t dev.inEndpoint buf1
                (min 64 dev.sendQueue.elements.length) fuel hm64 fuel
                dev.deviceToHostHandle w1 with hs | ⟨h1, w2, hs, hw2⟩
            · left
              simp only [drainLoop, hne, if_true, hw, hf, hs]
            · rcases ih { dev with
                  sendQueue := { dev.sendQueue with
                    elements := dev.sendQueue.elements.drop
                      (min 64 dev.sendQueue.elements.length) },
                  deviceToHostHandle := h1 } w2 with hr | ⟨e, dev1, w3, ws, hr, h3, h4, h5, h6, _⟩
              · left
                simp only [drainLoop, hne, if_true, hw, hf, hs, hr]
              · right
                refine ⟨e, dev1, w3,
                  dev.sendQueue.elements.take (min 64 dev.sendQueue.elements.length) :: ws,
                  ?_, ?_, ?_, ?_, h6, fun h => absurd h hq⟩
                · simp only [drainLoop, hne, if_true, hw, hf, hs, hr]
                · rw [h3, hw2, hw1, hbuf]
                  simp [hmpos]
                · simp only [List.flatten_cons, List.append_assoc]
                  rw [h4]
                  exact List.take_append_drop _ _
                · intro p hp
                  rcases List.mem_cons.mp hp with hp | hp
                  · subst hp
                    simp only [List.length_take]
                    omega
                  · exact h5 p hp

theorem drainLoop_idle (size : Nat) (hsz : 64 ≤ size) (t : USBDevice σ)
    (hidle : ∀ h s, (t.HandleBusy h s).1 = false) (fuel : Nat) (hfuel : 65 ≤ fuel) :
    ∀ (n : Nat) (dev : UsbDevice) (w : World σ),
      (dev.sendQueue.elements.length + 63) / 64 < n →
      ∃ dev1 w1 ws, drainLoop size t fuel n dev w = .ok (.drained, dev1, w1) ∧
        dev1.sendQueue.elements = [] ∧
        writes w1.trace = writes w.trace ++ ws ∧
        ws.flatten = dev.sendQueue.elements ∧
        ws.length = (dev.sendQueue.elements.length + 63) / 64 ∧
        (∀ p ∈ ws, 1 ≤ p.length ∧ p.length ≤ 64) ∧
        (∀ p ∈ ws.dropLast, p.length = 64) ∧
        polls w1.trace = polls w.trace + (if dev.configured then 2 else 1) * ws.length := by
  intro n
  induction n with
  | zero => intro dev w hn; omega
  | succ n ih =>
    intro dev w hn
    by_cases hq : dev.sendQueue.elements = []
    · refine ⟨dev, w, [], ?_, hq, by simp, by simp [hq], by simp [hq], by simp, by simp,
        by simp⟩
      simp [drainLoop, QUEUE_EMPTY, hq]
    · have hne : (!QUEUE_EMPTY dev.sendQueue) = true := by
        simp [QUEUE_EMPTY, hq]
      have hlen : 0 < dev.sendQueue.elements.length := List.length_pos.mpr hq
      obtain ⟨f, rfl⟩ : ∃ f, fuel = f + 2 := ⟨fuel - 2, by omega⟩
      -- the wait at the head of the iteration
      obtain ⟨w1, hw, hw1, hp1⟩ : ∃ w1, waitForHost t dev (f + 2) 0 w = .ok (.ready, w1) ∧
          writes w1.trace = writes w.trace ∧
          polls w1.trace = polls w.trace + (if dev.configured then 1 else 0) := by
        cases hc : dev.configured with
        | false =>
          exact ⟨w, waitForHost_unconfigured t dev hc _ 0 w, rfl, by simp⟩
        | true =>
          refine ⟨_, waitForHost_idle t dev hc _ 0 w (hidle _ _), ?_, ?_⟩
          · simp [pollBusy, writes_append, writes]
          · simp [pollBusy, polls_append, polls]
      -- the scratch buffer
      rcases fillSendBuffer_spec (f + 2) dev.sendQueue 0 (List.replicate size 0)
          (by omega) (by simpa using hsz) with ⟨_, hf⟩ | ⟨buf1, hf, _, hbuf⟩
      · exfalso
        have := Nat.min_le_left (64 - 0) dev.sendQueue.elements.length
        omega
      · simp only [Nat.sub_zero, Nat.zero_add, List.take_zero, List.nil_append] at hf hbuf
        have hm64 : min 64 dev.sendQueue.elements.length ≤ 64 := Nat.min_le_left _ _
        have hmpos : 0 < min 64 dev.sendQueue.elements.length := by omega
        have hs := sendChunks_idle t dev.inEndpoint buf1
          (min 64 dev.sendQueue.elements.length) (f + 1) f hmpos hm64
          dev.deviceToHostHandle w1 (hidle _ _)
        obtain ⟨dev1, w3, ws, hr, h1, h2, h3, h4, h5, h6, h7⟩ := ih
          { dev with
            sendQueue := { dev.sendQueue with
              elements := dev.sendQueue.elements.drop
                (min 64 dev.sendQueue.elements.length) },
            deviceToHostHandle :=
              (genWrite t dev.inEndpoint
                (buf1.take (min 64 dev.sendQueue.elements.length))
                (pollBusy t dev.deviceToHostHandle w1).2).1 }
          (genWrite t dev.inEndpoint
            (buf1.take (min 64 dev.sendQueue.elements.length))
            (pollBusy t dev.deviceToHostHandle w1).2).2
          (by simp only [List.length_drop]; omega)
        simp only [List.length_drop] at h4 h7
        refine ⟨dev1, w3,
          dev.sendQueue.elements.take (min 64 dev.sendQueue.elements.length) :: ws,
          ?_, h1, ?_, ?_, ?_, ?_, ?_, ?_⟩
        · simp only [drainLoop, hne, if_true, hw, hf, hs, hr]
        · rw [h2, hbuf]
          simp [genWrite, pollBusy, writes_append, writes, hw1]
        · simp only [List.flatten_cons]
          rw [h3]
          exact List.take_append_drop _ _
        · simp only [List.length_cons, h4]
          omega
        · intro p hp
          rcases List.mem_cons.mp hp with hp | hp
          · subst hp
            simp only [List.length_take]
            omega
          · exact h5 p hp
        · intro p hp
          cases ws with
          | nil => simp at hp
          | cons a ws1 =>
            rw [List.dropLast_cons₂] at hp
            rcases List.mem_cons.mp hp with hp | hp
            · subst hp
              simp only [List.length_cons] at h4
              simp only [List.length_take]
              omega
            · exact h6 p hp
        · rw [h7]
          simp only [genWrite, pollBusy, polls_append, polls, hp1, List.length_cons]
          split <;> simp <;> omega

theorem drainLoop_unconfigured_stuck (size : Nat) (hsz : 64 ≤ size) (t : USBDevice σ)
    (hbusy : ∀ h s, (t.HandleBusy h s).1 = true) (fuel n : Nat) (dev : UsbDevice)
    (w : World σ) (hc : dev.configured = false) (hq : dev.sendQueue.elements ≠ []) :
    drainLoop size t fuel n dev w = .error .outOfFuel := by
  cases n with
  | zero => rfl
  | succ n =>
    have hne : (!QUEUE_EMPTY dev.sendQueue) = true := by
      simp [QUEUE_EMPTY, hq]
    cases fuel with
    | zero => simp [drainLoop, hne, waitForHost]
    | succ fuel =>
      have hw := waitForHost_unconfigured t dev hc fuel 0 w
      rcases fillSendBuffer_spec (fuel + 1) dev.sendQueue 0 (List.replicate size 0)
          (by omega) (by simpa using hsz) with ⟨hf, _⟩ | ⟨buf1, hf, _, _⟩
      · simp only [drainLoop, hne, if_true, hw, hf]
      · have hlen : 0 < dev.sendQueue.elements.length := List.length_pos.mpr hq
        have hmpos : 0 < 0 + min (64 - 0) dev.sendQueue.elements.length := by omega
        have hspin : ∀ h, spinWhileBusy t h (fuel + 1) w = .error .outOfFuel := fun h =>
          spinWhileBusy_stuck t h (fun _ => True) (fun s _ => ⟨hbusy h s, trivial⟩) _ w trivial
        simp only [drainLoop, hne, if_true, hw, hf, sendChunks, hmpos, hspin]

theorem drainLoop_stuck (size : Nat) (t : USBDevice σ) (dev : UsbDevice) (P : σ → Prop)
    (hP : ∀ s, P s → (t.HandleBusy dev.deviceToHostHandle s).1 = true ∧
      P (t.HandleBusy dev.deviceToHostHandle s).2)
    (hc : dev.configured = true) (hq : dev.sendQueue.elements ≠ [])
    (fuel n : Nat) (hfuel : 50001 ≤ fuel) (w : World σ) (hw : P w.hw) :
    ∃ w1, drainLoop size t fuel (n + 1) dev w = .ok (.bailed, dev, w1) ∧
      w1.trace = w.trace ++
        List.replicate 50001 (Event.HandleBusy dev.deviceToHostHandle true) := by
  have hne : (!QUEUE_EMPTY dev.sendQueue) = true := by
    simp [QUEUE_EMPTY, hq]
  obtain ⟨w1, h1, _, h3⟩ := waitForHost_stuck t dev P hP hc fuel 0 w hw (by omega) (by omega)
  exact ⟨w1, by simp only [drainLoop, hne, if_true, h1], h3⟩

theorem drainLoop_step (size : Nat) (hsz : 64 ≤ size) (t : USBDevice σ) (fuel : Nat)
    (hfuel : 65 ≤ fuel) (n : Nat) (dev : UsbDevice) (w w1 : World σ)
    (hq : dev.sendQueue.elements ≠ [])
    (hw : waitForHost t dev fuel 0 w = .ok (.ready, w1))
    (hidle : (t.HandleBusy dev.deviceToHostHandle w1.hw).1 = false) :
    drainLoop size t fuel (n + 1) dev w =
      drainLoop size t fuel n
        { dev with
          sendQueue := { dev.sendQueue with elements := dev.sendQueue.elements.drop 64 },
          deviceToHostHandle :=
            (genWrite t dev.inEndpoint (dev.sendQueue.elements.take 64)
              (pollBusy t dev.deviceToHostHandle w1).2).1 }
        (genWrite t dev.inEndpoint (dev.sendQueue.elements.take 64)
          (pollBusy t dev.deviceToHostHandle w1).2).2 := by
  have hne : (!QUEUE_EMPTY dev.sendQueue) = true := by
    simp [QUEUE_EMPTY, hq]
  have hlen : 0 < dev.sendQueue.elements.length := List.length_pos.mpr hq
  obtain ⟨f, rfl⟩ : ∃ f, fuel = f + 2 := ⟨fuel - 2, by omega⟩
  rcases fillSendBuffer_spec (f + 2) dev.sendQueue 0 (List.replicate size 0)
      (by omega) (by simpa using hsz) with ⟨_, hf⟩ | ⟨buf1, hf, _, hbuf⟩
  · exfalso
    have := Nat.min_le_left (64 - 0) dev.sendQueue.elements.length
    omega
  · simp only [Nat.sub_zero, Nat.zero_add, List.take_zero, List.nil_append] at hf hbuf
    have hm64 : min 64 dev.sendQueue.elements.length ≤ 64 := Nat.min_le_left _ _
    have hmpos : 0 < min 64 dev.sendQueue.elements.length := by omega
    have hs := sendChunks_idle t dev.inEndpoint buf1
      (min 64 dev.sendQueue.elements.length) (f + 1) f hmpos hm64
      dev.deviceToHostHandle w1 hidle
    have htake : dev.sendQueue.elements.take (min 64 dev.sendQueue.elements.length) =
        dev.sendQueue.elements.take 64 := by
      rcases Nat.le_total 64 dev.sendQueue.elements.length with h | h
      · rw [Nat.min_eq_left h]
      · rw [Nat.min_eq_right h, List.take_of_length_le h, List.take_of_length_le (Nat.le_refl _)]
    have hdrop : dev.sendQueue.elements.drop (min 64 dev.sendQueue.elements.length) =
        dev.sendQueue.elements.drop 64 := by
      rcases Nat.le_total 64 dev.sendQueue.elements.length with h | h
      · rw [Nat.min_eq_left h]
      · rw [Nat.min_eq_right h, List.drop_of_length_le h, List.drop_of_length_le (Nat.le_refl _)]
    simp only [drainLoop, hne, if_true, hw, hf, hs, hbuf, htake, hdrop]

theorem drainLoop_unconfigured_exit (size : Nat) (t : USBDevice σ) (fuel : Nat) :
    ∀ (n : Nat) (dev : UsbDevice) (w : World σ) (r : Exit × UsbDevice × World σ),
      dev.configured = false → drainLoop size t fuel n dev w = .ok r → r.1 = .drained := by
  intro n
  induction n with
  | zero => intro dev w r _ h; simp [drainLoop] at h
  | succ n ih =>
    intro dev w r hc h
    simp only [drainLoop] at h
    split at h
    · cases fuel with
      | zero => simp [waitForHost] at h
      | succ fuel =>
        rw [waitForHost_unconfigured t dev hc] at h
        simp only at h
        split at h
        · simp at h
        · split at h
          · simp at h
          · exact ih _ _ r (by simpa using hc) h
    · simp only [Except.ok.injEq] at h
      rw [← h]

/-! ## Claims on processUsbSendQueue -/

/-- C1, as stated, fails: with the configured flag false the retry ceiling
does not apply.  On a transport that is busy at every poll and a send queue
holding one byte, the byte is popped and the wait before the write never
ends, so the call never returns, whatever the fuel. -/
theorem processUsbSendQueue_unconfigured_stuck_hangs :
    (∀ h s, (stuckDevice.HandleBusy h s).1 = true) ∧
    (sampleDevice false [1]).sendQueue.elements ≠ [] ∧
    ¬ ∃ fuel r,
      processUsbSendQueue 64 stuckDevice fuel (sampleDevice false [1]) ⟨(), []⟩ = .ok r := by
  refine ⟨fun _ _ => rfl, by decide, ?_⟩
  rintro ⟨fuel, r, h⟩
  rw [processUsbSendQueue,
    drainLoop_unconfigured_stuck 64 (Nat.le_refl _) stuckDevice (fun _ _ => rfl) fuel fuel
      (sampleDevice false [1]) ⟨(), []⟩ rfl (by decide)] at h
  cases h

/-- C1 (amended): for every device state whose configured flag is true and
whose send queue is non-empty, on a transport that is busy at every poll,
processUsbSendQueue returns through the early return after exactly 50001 busy
polls (the poll that takes the counter past the ceiling of 50000 included),
issues no write, and leaves the device state, the send queue included, exactly
as it was. -/
theorem processUsbSendQueue_stuck_bails (size : Nat) (t : USBDevice σ) (fuel : Nat)
    (dev : UsbDevice) (w : World σ)
    (hbusy : ∀ h s, (t.HandleBusy h s).1 = true) (hc : dev.configured = true)
    (hq : dev.sendQueue.elements ≠ []) (hfuel : 50001 ≤ fuel) :
    ∃ w1, processUsbSendQueue size t fuel dev w = .ok (.bailed, dev, w1) ∧
      w1.trace = w.trace ++
        List.replicate 50001 (Event.HandleBusy dev.deviceToHostHandle true) ∧
      polls w1.trace = polls w.trace + 50001 ∧
      writes w1.trace = writes w.trace := by
  obtain ⟨n, rfl⟩ : ∃ n, fuel = n + 1 := ⟨fuel - 1, by omega⟩
  obtain ⟨w1, h1, h2⟩ := drainLoop_stuck size t dev (fun _ => True)
    (fun s _ => ⟨hbusy _ s, trivial⟩) hc hq (n + 1) n hfuel w trivial
  refine ⟨w1, h1, h2, ?_, ?_⟩
  · rw [h2, polls_append, polls_replicate]
  · rw [h2, writes_append, writes_replicate, List.append_nil]

/-- Witness of C1 (amended): a configured device with three queued bytes on
the transport that is always busy. -/
theorem processUsbSendQueue_stuck_bails_witness :
    (∀ h s, (stuckDevice.HandleBusy h s).1 = true) ∧
    (sampleDevice true [1, 2, 3]).configured = true ∧
    (sampleDevice true [1, 2, 3]).sendQueue.elements ≠ [] ∧
    ∃ w1, processUsbSendQueue 64 stuckDevice 50001 (sampleDevice true [1, 2, 3]) ⟨(), []⟩ =
        .ok (.bailed, sampleDevice true [1, 2, 3], w1) ∧
      w1.trace = [] ++ List.replicate 50001
        (Event.HandleBusy (sampleDevice true [1, 2, 3]).deviceToHostHandle true) ∧
      polls w1.trace = polls [] + 50001 ∧
      writes w1.trace = writes [] :=
  ⟨fun _ _ => rfl, rfl, by decide,
    processUsbSendQueue_stuck_bails 64 stuckDevice 50001 (sampleDevice true [1, 2, 3])
      ⟨(), []⟩ (fun _ _ => rfl) rfl (by decide) (Nat.le_refl _)⟩

/-- C2: whenever processUsbSendQueue runs to completion without taking the
early return, the send queue is empty on return and the payloads of the
GenWrite calls it made, concatenated in call order, are the initial content of
the send queue; for an empty queue nothing at all is issued.  On a transport
that is never busy the call does run to completion. -/
theorem processUsbSendQueue_drained_fifo (size : Nat) (hsz : 64 ≤ size) (t : USBDevice σ)
    (fuel : Nat) (dev : UsbDevice) (w : World σ) :
    (∀ dev1 w1, processUsbSendQueue size t fuel dev w = .ok (.drained, dev1, w1) →
      dev1.sendQueue.elements = [] ∧
      (∃ ws, writes w1.trace = writes w.trace ++ ws ∧
        ws.flatten = dev.sendQueue.elements) ∧
      (dev.sendQueue.elements = [] → w1.trace = w.trace)) ∧
    ((∀ h s, (t.HandleBusy h s).1 = false) → 65 + dev.sendQueue.elements.length ≤ fuel →
      ∃ dev1 w1, processUsbSendQueue size t fuel dev w = .ok (.drained, dev1, w1)) := by
  constructor
  · intro dev1 w1 h
    rw [processUsbSendQueue] at h
    rcases drainLoop_spec size hsz t fuel fuel dev w with he | ⟨e, d, x, ws, hr, h1, h2, _, h4, h5⟩
    · rw [he] at h; cases h
    · rw [hr] at h
      simp only [Except.ok.injEq, Prod.mk.injEq] at h
      obtain ⟨rfl, rfl, rfl⟩ := h
      have hd := h4 rfl
      refine ⟨hd, ⟨ws, h1, ?_⟩, fun hq => ?_⟩
      · rw [hd, List.append_nil] at h2; exact h2
      · rw [(h5 hq).2.2]
  · intro hidle hfuel
    obtain ⟨dev1, w1, _, hr, _⟩ := drainLoop_idle size hsz t hidle fuel (by omega) fuel dev w
      (by omega)
    exact ⟨dev1, w1, hr⟩

/-- Witness of C2: three queued bytes on the transport that is never busy are
written as one packet, in order. -/
theorem processUsbSendQueue_drained_fifo_witness :
    64 ≤ 64 ∧
    ∃ dev1 w1, processUsbSendQueue 64 idleDevice 70 (sampleDevice true [1, 2, 3]) ⟨(), []⟩ =
        .ok (.drained, dev1, w1) ∧
      dev1.sendQueue.elements = [] ∧
      ∃ ws, writes w1.trace = writes [] ++ ws ∧ ws.flatten = [1, 2, 3] := by
  have h := processUsbSendQueue_drained_fifo 64 (Nat.le_refl _) idleDevice 70
    (sampleDevice true [1, 2, 3]) ⟨(), []⟩
  obtain ⟨dev1, w1, hr⟩ := h.2 (fun _ _ => rfl) (by decide)
  exact ⟨Nat.le_refl _, dev1, w1, hr, (h.1 dev1 w1 hr).1, (h.1 dev1 w1 hr).2.1⟩

/-- C3: whenever processUsbSendQueue returns through the early return at the
retry ceiling, the payloads it has written, concatenated in call order and
followed by the bytes still in the send queue, are the initial content of the
send queue. -/
theorem processUsbSendQueue_bailed_no_loss (size : Nat) (hsz : 64 ≤ size) (t : USBDevice σ)
    (fuel : Nat) (dev dev1 : UsbDevice) (w w1 : World σ)
    (hrun : processUsbSendQueue size t fuel dev w = .ok (.bailed, dev1, w1)) :
    ∃ ws, writes w1.trace = writes w.trace ++ ws ∧
      ws.flatten ++ dev1.sendQueue.elements = dev.sendQueue.elements := by
  rw [processUsbSendQueue] at hrun
  rcases drainLoop_spec size hsz t fuel fuel dev w with he | ⟨e, d, x, ws, hr, h1, h2, _⟩
  · rw [he] at hrun; cases hrun
  · rw [hr] at hrun
    simp only [Except.ok.injEq, Prod.mk.injEq] at hrun
    obtain ⟨rfl, rfl, rfl⟩ := hrun
    exact ⟨ws, h1, h2⟩

/-- The run behind the witness of C3: the host takes one packet of 64 bytes
and then stops reading, so the second iteration gives up at the ceiling with
two bytes still queued. -/
theorem oneShotDevice_run :
    ∃ dev1 w1,
      processUsbSendQueue 64 oneShotDevice 50001
          (sampleDevice true (List.replicate 64 1 ++ [2, 3])) ⟨0, []⟩ =
        .ok (.bailed, dev1, w1) ∧
      dev1.sendQueue.elements = [2, 3] ∧
      writes w1.trace = [List.replicate 64 1] := by
  have hstep := drainLoop_step 64 (Nat.le_refl _) oneShotDevice 50001 (by decide) 50000
    (sampleDevice true (List.replicate 64 1 ++ [2, 3])) ⟨0, []⟩ _ (by decide)
    (waitForHost_idle oneShotDevice _ rfl 50000 0 ⟨0, []⟩ rfl) rfl
  obtain ⟨w1, h1, h2⟩ := drainLoop_stuck 64 oneShotDevice
    { sampleDevice true (List.replicate 64 1 ++ [2, 3]) with
      sendQueue := { elements := [2, 3], capacity := 256 }
      deviceToHostHandle := 7 }
    (fun s => 0 < s) (fun s hs => ⟨by simpa [oneShotDevice] using hs, hs⟩) rfl (by decide)
    50001 49999 (Nat.le_refl _)
    ⟨1, [Event.HandleBusy 0 false, Event.HandleBusy 0 false,
      Event.GenWrite 1 (List.replicate 64 1)]⟩ (by decide)
  refine ⟨{ sampleDevice true (List.replicate 64 1 ++ [2, 3]) with
      sendQueue := { elements := [2, 3], capacity := 256 }
      deviceToHostHandle := 7 }, w1, ?_, rfl, ?_⟩
  · rw [processUsbSendQueue, hstep]
    exact h1
  · rw [h2, writes_append, writes_replicate]
    rfl

/-- Witness of C3: on the host that stops reading after one packet, 66 queued
bytes end as one written packet of 64 bytes and two bytes still queued. -/
theorem processUsbSendQueue_bailed_no_loss_witness :
    64 ≤ 64 ∧
    ∃ dev1 w1,
      processUsbSendQueue 64 oneShotDevice 50001
          (sampleDevice true (List.replicate 64 1 ++ [2, 3])) ⟨0, []⟩ =
        .ok (.bailed, dev1, w1) ∧
      dev1.sendQueue.elements = [2, 3] ∧
      writes w1.trace = [List.replicate 64 1] ∧
      ∃ ws, writes w1.trace = writes [] ++ ws ∧
        ws.flatten ++ dev1.sendQueue.elements =
          (sampleDevice true (List.replicate 64 1 ++ [2, 3])).sendQueue.elements := by
  obtain ⟨dev1, w1, hr, hq, hw⟩ := oneShotDevice_run
  exact ⟨Nat.le_refl _, dev1, w1, hr, hq, hw,
    processUsbSendQueue_bailed_no_loss 64 (Nat.le_refl _) oneShotDevice 50001 _ dev1 ⟨0, []⟩ w1
      hr⟩

/-- C4: on a transport that is never busy, a send queue of n bytes is drained
with exactly ceil(n/64) writes; every write carries between 1 and 64 bytes and
every write but the last carries exactly 64, so each filling of the scratch
buffer goes out as a single packet. -/
theorem processUsbSendQueue_idle_packets (size : Nat) (hsz : 64 ≤ size) (t : USBDevice σ)
    (fuel : Nat) (dev : UsbDevice) (w : World σ)
    (hidle : ∀ h s, (t.HandleBusy h s).1 = false)
    (hfuel : 65 + dev.sendQueue.elements.length ≤ fuel) :
    ∃ dev1 w1 ws, processUsbSendQueue size t fuel dev w = .ok (.drained, dev1, w1) ∧
      writes w1.trace = writes w.trace ++ ws ∧
      ws.length = (dev.sendQueue.elements.length + 63) / 64 ∧
      (∀ p ∈ ws, 1 ≤ p.length ∧ p.length ≤ 64) ∧
      (∀ p ∈ ws.dropLast, p.length = 64) := by
  obtain ⟨dev1, w1, ws, hr, _, h2, _, h4, h5, h6, _⟩ :=
    drainLoop_idle size hsz t hidle fuel (by omega) fuel dev w (by omega)
  exact ⟨dev1, w1, ws, hr, h2, h4, h5, h6⟩

/-- Witness of C4: 130 queued bytes on the transport that is never busy. -/
theorem processUsbSendQueue_idle_packets_witness :
    64 ≤ 64 ∧ (∀ h s, (idleDevice.HandleBusy h s).1 = false) ∧
    65 + (sampleDevice true (List.replicate 130 3)).sendQueue.elements.length ≤ 200 ∧
    ∃ dev1 w1 ws,
      processUsbSendQueue 64 idleDevice 200 (sampleDevice true (List.replicate 130 3))
          ⟨(), []⟩ = .ok (.drained, dev1, w1) ∧
      writes w1.trace = writes [] ++ ws ∧
      ws.length = ((sampleDevice true (List.replicate 130 3)).sendQueue.elements.length + 63)
        / 64 ∧
      (∀ p ∈ ws, 1 ≤ p.length ∧ p.length ≤ 64) ∧
      (∀ p ∈ ws.dropLast, p.length = 64) :=
  ⟨Nat.le_refl _, fun _ _ => rfl, by simp [sampleDevice],
    processUsbSendQueue_idle_packets 64 (Nat.le_refl _) idleDevice 200
      (sampleDevice true (List.replicate 130 3)) ⟨(), []⟩ (fun _ _ => rfl)
      (by simp [sampleDevice])⟩

/-- C7, as stated, fails: the wait before each GenWrite (line 70) is not
guarded by the configured flag.  An unconfigured device with one queued byte
polls HandleBusy once, then writes the byte. -/
theorem processUsbSendQueue_unconfigured_polls :
    (sampleDevice false [1]).configured = false ∧
    ∃ dev1 w1,
      processUsbSendQueue 64 idleDevice 70 (sampleDevice false [1]) ⟨(), []⟩ =
        .ok (.drained, dev1, w1) ∧
      w1.trace = [Event.HandleBusy 0 false, Event.GenWrite 1 [1]] ∧
      polls w1.trace = 1 :=
  ⟨rfl, _, _, rfl, rfl, rfl⟩

/-- C7 (amended): the configured flag gates only the bounded wait at the head
of each drain iteration (lines 52-60).  When the flag is false that wait polls
nothing and the call never takes the early return; with an empty send queue
HandleBusy is not called at all.  With a non-empty queue HandleBusy is still
polled by the unguarded wait before each GenWrite: on a transport that is
never busy, exactly once per write. -/
theorem processUsbSendQueue_unconfigured (size : Nat) (hsz : 64 ≤ size) (t : USBDevice σ)
    (dev : UsbDevice) (hc : dev.configured = false) :
    (∀ fuel i (w : World σ), waitForHost t dev (fuel + 1) i w = .ok (.ready, w)) ∧
    (∀ fuel (w : World σ) r, processUsbSendQueue size t fuel dev w = .ok r →
      r.1 = .drained) ∧
    (dev.sendQueue.elements = [] → ∀ fuel (w : World σ),
      processUsbSendQueue size t (fuel + 1) dev w = .ok (.drained, dev, w)) ∧
    ((∀ h s, (t.HandleBusy h s).1 = false) → ∀ fuel (w : World σ),
      65 + dev.sendQueue.elements.length ≤ fuel →
      ∃ dev1 w1 ws, processUsbSendQueue size t fuel dev w = .ok (.drained, dev1, w1) ∧
        writes w1.trace = writes w.trace ++ ws ∧
        polls w1.trace = polls w.trace + ws.length) := by
  refine ⟨fun fuel i w => waitForHost_unconfigured t dev hc fuel i w,
    fun fuel w r h => drainLoop_unconfigured_exit size t fuel fuel dev w r hc h,
    fun hq fuel w => ?_, fun hidle fuel w hfuel => ?_⟩
  · simp [processUsbSendQueue, drainLoop, QUEUE_EMPTY, hq]
  · obtain ⟨dev1, w1, ws, hr, _, h2, _, _, _, _, h7⟩ :=
      drainLoop_idle size hsz t hidle fuel (by omega) fuel dev w (by omega)
    refine ⟨dev1, w1, ws, hr, h2, ?_⟩
    rw [h7, hc]
    simp

/-- Witness of C7 (amended): an unconfigured device with three queued bytes
on the transport that is never busy. -/
theorem processUsbSendQueue_unconfigured_witness :
    64 ≤ 64 ∧ (sampleDevice false [1, 2, 3]).configured = false ∧
    ∃ dev1 w1 ws,
      processUsbSendQueue 64 idleDevice 70 (sampleDevice false [1, 2, 3]) ⟨(), []⟩ =
        .ok (.drained, dev1, w1) ∧
      writes w1.trace = writes [] ++ ws ∧
      polls w1.trace = polls [] + ws.length :=
  ⟨Nat.le_refl _, rfl,
    (processUsbSendQueue_unconfigured 64 (Nat.le_refl _) idleDevice
      (sampleDevice false [1, 2, 3]) rfl).2.2.2 (fun _ _ => rfl) 70 ⟨(), []⟩ (by decide)⟩

/-- C9: whatever the device state and the transport do, processUsbSendQueue
never pops the send queue when it is empty and never stores past the end of a
scratch buffer of 64 bytes or more (so never at an index of 64 or more); each
filling of the scratch buffer pops at most 64 bytes and stops for lack of fuel
only below 65 iterations. -/
theorem processUsbSendQueue_safe (size : Nat) (hsz : 64 ≤ size) (t : USBDevice σ)
    (fuel : Nat) (dev : UsbDevice) (w : World σ) :
    processUsbSendQueue size t fuel dev w ≠ .error .popEmpty ∧
    processUsbSendQueue size t fuel dev w ≠ .error .bufferOverrun ∧
    ∀ q : ByteQueue,
      (fillSendBuffer fuel q 0 (List.replicate size 0) = .error .outOfFuel ∧ fuel ≤ 64) ∨
      ∃ q1 byteCount buf,
        fillSendBuffer fuel q 0 (List.replicate size 0) = .ok (q1, byteCount, buf) ∧
        byteCount ≤ 64 ∧ q1.elements.length + byteCount = q.elements.length := by
  refine ⟨?_, ?_, fun q => ?_⟩
  · rw [processUsbSendQueue]
    rcases drainLoop_spec size hsz t fuel fuel dev w with he | ⟨e, d, x, ws, hr, _⟩
    · rw [he]; simp
    · rw [hr]; simp
  · rw [processUsbSendQueue]
    rcases drainLoop_spec size hsz t fuel fuel dev w with he | ⟨e, d, x, ws, hr, _⟩
    · rw [he]; simp
    · rw [hr]; simp
  · rcases fillSendBuffer_spec fuel q 0 (List.replicate size 0) (by omega)
        (by simpa using hsz) with ⟨h1, h2⟩ | ⟨buf1, h1, _, _⟩
    · left
      exact ⟨h1, Nat.le_trans h2 (Nat.min_le_left _ _)⟩
    · right
      refine ⟨_, _, buf1, h1, ?_, ?_⟩
      · have := Nat.min_le_left (64 - 0) q.elements.length
        omega
      · simp only [List.length_drop]
        have := Nat.min_le_right (64 - 0) q.elements.length
        omega

/-- Witness of C9: a scratch buffer of exactly 64 bytes and 130 queued bytes. -/
theorem processUsbSendQueue_safe_witness :
    64 ≤ 64 ∧
    processUsbSendQueue 64 idleDevice 200 (sampleDevice true (List.replicate 130 3))
      ⟨(), []⟩ ≠ .error .popEmpty ∧
    processUsbSendQueue 64 idleDevice 200 (sampleDevice true (List.replicate 130 3))
      ⟨(), []⟩ ≠ .error .bufferOverrun :=
  ⟨Nat.le_refl _,
    (processUsbSendQueue_safe 64 (Nat.le_refl _) idleDevice 200
      (sampleDevice true (List.replicate 130 3)) ⟨(), []⟩).1,
    (processUsbSendQueue_safe 64 (Nat.le_refl _) idleDevice 200
      (sampleDevice true (List.replicate 130 3)) ⟨(), []⟩).2.1⟩

/-! ## Claims on readFromHost -/

theorem foldl_QUEUE_PUSH (buf : Nat → Byte) (q : ByteQueue) :
    ∀ s : Nat, (List.range s).foldl (fun q i => (QUEUE_PUSH q (buf i)).2) q =
      { elements := q.elements ++
          (List.range (min s (q.capacity - q.elements.length))).map buf,
        capacity := q.capacity } := by
  intro s
  induction s with
  | zero => simp
  | succ s ih =>
    rw [List.range_succ, List.foldl_append, ih]
    simp only [List.foldl_cons, List.foldl_nil, QUEUE_PUSH, QUEUE_FULL, List.length_append,
      List.length_map, List.length_range]
    by_cases hfull : q.capacity ≤ q.elements.length + min s (q.capacity - q.elements.length)
    · have hm : min (s + 1) (q.capacity - q.elements.length) =
          min s (q.capacity - q.elements.length) := by omega
      simp [hfull, hm]
    · have hm : min (s + 1) (q.capacity - q.elements.length) = s + 1 := by omega
      have hm1 : min s (q.capacity - q.elements.length) = s := by omega
      have hfull1 : ¬ q.capacity ≤ q.elements.length + s := by omega
      simp [hm, hm1, hfull1, List.range_succ]

theorem pushReceived_eq (dev : UsbDevice) :
    pushReceived dev =
      { elements := dev.receiveQueue.elements ++
          (List.range (min dev.outEndpointSize
            (dev.receiveQueue.capacity - dev.receiveQueue.elements.length))).map
              dev.receiveBuffer,
        capacity := dev.receiveQueue.capacity } :=
  foldl_QUEUE_PUSH dev.receiveBuffer dev.receiveQueue dev.outEndpointSize

/-- C5: when the transport reports the host-to-device handle busy,
readFromHost leaves the whole device state as it was (receive queue, receive
buffer and host-to-device handle included); the only call it makes is the one
busy check, so no read is armed and the callback is not invoked. -/
theorem readFromHost_busy (t : USBDevice σ) (dev : UsbDevice) (callback : List Byte → Bool)
    (w : World σ) (hbusy : (t.HandleBusy dev.hostToDeviceHandle w.hw).1 = true) :
    (readFromHost t dev callback w).1 = dev ∧
    (readFromHost t dev callback w).2.trace =
      w.trace ++ [Event.HandleBusy dev.hostToDeviceHandle true] := by
  simp [readFromHost, pollBusy, hbusy]

/-- Witness of C5: the sample device on the transport that is always busy. -/
theorem readFromHost_busy_witness :
    (stuckDevice.HandleBusy (sampleDevice true []).hostToDeviceHandle ()).1 = true ∧
    (readFromHost stuckDevice (sampleDevice true []) (fun _ => true) ⟨(), []⟩).1 =
      sampleDevice true [] ∧
    (readFromHost stuckDevice (sampleDevice true []) (fun _ => true) ⟨(), []⟩).2.trace =
      [] ++ [Event.HandleBusy (sampleDevice true []).hostToDeviceHandle true] :=
  ⟨rfl, readFromHost_busy stuckDevice (sampleDevice true []) (fun _ => true) ⟨(), []⟩ rfl⟩

/-- C6: when the transport is not busy and the first byte of the receive
buffer is non-zero, with c bytes queued in a receive queue of capacity N
(c at most N) and endpoint size s: readFromHost makes exactly three calls, the
busy check, then the callback, then GenRead; the callback is handed the old
queue content followed by the first min(s, N - c) bytes of the buffer, which
is at most N bytes; the bytes beyond are dropped; the queue left behind is
either that content or empty, so it holds at most N bytes. -/
theorem readFromHost_feeds (t : USBDevice σ) (dev : UsbDevice) (callback : List Byte → Bool)
    (w : World σ) (hidle : (t.HandleBusy dev.hostToDeviceHandle w.hw).1 = false)
    (hfirst : dev.receiveBuffer 0 ≠ 0)
    (hcap : dev.receiveQueue.elements.length ≤ dev.receiveQueue.capacity) :
    (readFromHost t dev callback w).2.trace =
      w.trace ++
        [Event.HandleBusy dev.hostToDeviceHandle false,
         Event.callback (dev.receiveQueue.elements ++
           (List.range (min dev.outEndpointSize
             (dev.receiveQueue.capacity - dev.receiveQueue.elements.length))).map
               dev.receiveBuffer),
         Event.GenRead dev.outEndpoint dev.outEndpointSize] ∧
    (dev.receiveQueue.elements ++
        (List.range (min dev.outEndpointSize
          (dev.receiveQueue.capacity - dev.receiveQueue.elements.length))).map
            dev.receiveBuffer).length ≤ dev.receiveQueue.capacity ∧
    ((readFromHost t dev callback w).1.receiveQueue.elements =
        dev.receiveQueue.elements ++
          (List.range (min dev.outEndpointSize
            (dev.receiveQueue.capacity - dev.receiveQueue.elements.length))).map
              dev.receiveBuffer ∨
      (readFromHost t dev callback w).1.receiveQueue.elements = []) ∧
    (readFromHost t dev callback w).1.receiveQueue.elements.length ≤
      dev.receiveQueue.capacity ∧
    (readFromHost t dev callback w).1.receiveQueue.capacity = dev.receiveQueue.capacity := by
  have hlen : (dev.receiveQueue.elements ++
        (List.range (min dev.outEndpointSize
          (dev.receiveQueue.capacity - dev.receiveQueue.elements.length))).map
            dev.receiveBuffer).length ≤ dev.receiveQueue.capacity := by
    simp only [List.length_append, List.length_map, List.length_range]
    omega
  have hrun : readFromHost t dev callback w =
      armForRead t
        { dev with receiveQueue :=
            (processQueue (pushReceived dev) callback
              (pollBusy t dev.hostToDeviceHandle w).2).1 }
        (processQueue (pushReceived dev) callback
          (pollBusy t dev.hostToDeviceHandle w).2).2 := by
    simp [readFromHost, pollBusy, hidle, hfirst]
  rw [hrun, pushReceived_eq]
  refine ⟨?_, hlen, ?_, ?_, ?_⟩
  · simp [armForRead, genRead, processQueue, pollBusy, hidle]
  · simp only [armForRead, processQueue, QUEUE_INIT]
    split
    · right; rfl
    · left; rfl
  · simp only [armForRead, processQueue, QUEUE_INIT]
    split
    · simp
    · exact hlen
  · simp only [armForRead, processQueue, QUEUE_INIT]
    split <;> rfl

/-- Witness of C6: four received bytes meet an empty queue of capacity three;
the callback sees the first three. -/
theorem readFromHost_feeds_witness :
    (idleDevice.HandleBusy (sampleDevice true []).hostToDeviceHandle ()).1 = false ∧
    (sampleDevice true []).receiveBuffer 0 ≠ 0 ∧
    (sampleDevice true []).receiveQueue.elements.length ≤
      (sampleDevice true []).receiveQueue.capacity ∧
    (readFromHost idleDevice (sampleDevice true []) (fun _ => false) ⟨(), []⟩).2.trace =
      [Event.HandleBusy 0 false, Event.callback [5, 6, 7], Event.GenRead 2 4] :=
  ⟨rfl, by decide, by decide,
    (readFromHost_feeds idleDevice (sampleDevice true []) (fun _ => false) ⟨(), []⟩ rfl
      (by decide) (by decide)).1⟩

/-- C8: when the transport is not busy and the first byte of the receive
buffer is zero, readFromHost pushes nothing whatever the other bytes are: the
receive queue is unchanged and the callback is not invoked; the only calls are
the busy check and the GenRead that re-arms the transport, whose handle is
stored. -/
theorem readFromHost_zero_first (t : USBDevice σ) (dev : UsbDevice)
    (callback : List Byte → Bool) (w : World σ)
    (hidle : (t.HandleBusy dev.hostToDeviceHandle w.hw).1 = false)
    (hfirst : dev.receiveBuffer 0 = 0) :
    (readFromHost t dev callback w).1.receiveQueue = dev.receiveQueue ∧
    (readFromHost t dev callback w).2.trace =
      w.trace ++
        [Event.HandleBusy dev.hostToDeviceHandle false,
         Event.GenRead dev.outEndpoint dev.outEndpointSize] ∧
    (readFromHost t dev callback w).1.hostToDeviceHandle =
      (t.GenRead dev.outEndpoint dev.outEndpointSize
        (t.HandleBusy dev.hostToDeviceHandle w.hw).2).1 := by
  simp [readFromHost, armForRead, genRead, pollBusy, hidle, hfirst]

/-- Witness of C8: a buffer holding 0, 6, 7, 8 is taken for no data. -/
theorem readFromHost_zero_first_witness :
    (idleDevice.HandleBusy zeroFirstDevice.hostToDeviceHandle ()).1 = false ∧
    zeroFirstDevice.receiveBuffer 0 = 0 ∧ zeroFirstDevice.receiveBuffer 1 = 6 ∧
    (readFromHost idleDevice zeroFirstDevice (fun _ => true) ⟨(), []⟩).1.receiveQueue =
      zeroFirstDevice.receiveQueue ∧
    (readFromHost idleDevice zeroFirstDevice (fun _ => true) ⟨(), []⟩).2.trace =
      [] ++ [Event.HandleBusy zeroFirstDevice.hostToDeviceHandle false,
        Event.GenRead zeroFirstDevice.outEndpoint zeroFirstDevice.outEndpointSize] :=
  ⟨rfl, rfl, rfl,
    (readFromHost_zero_first idleDevice zeroFirstDevice (fun _ => true) ⟨(), []⟩ rfl rfl).1,
    (readFromHost_zero_first idleDevice zeroFirstDevice (fun _ => true) ⟨(), []⟩ rfl rfl).2.1⟩

/-- C10: after a call of readFromHost that finds the transport not busy, the
first byte of the receive buffer is zero.  Hence a second call that again
finds the transport not busy, nothing having been written to the buffer in
between, leaves the receive queue as the first call left it and makes only
the busy check and the GenRead: no byte is pushed and the callback is not
invoked. -/
theorem readFromHost_not_fed_twice (t : USBDevice σ) (dev : UsbDevice)
    (callback callback2 : List Byte → Bool) (w : World σ)
    (hidle : (t.HandleBusy dev.hostToDeviceHandle w.hw).1 = false) :
    (readFromHost t dev callback w).1.receiveBuffer 0 = 0 ∧
    ((t.HandleBusy (readFromHost t dev callback w).1.hostToDeviceHandle
        (readFromHost t dev callback w).2.hw).1 = false →
      (readFromHost t (readFromHost t dev callback w).1 callback2
          (readFromHost t dev callback w).2).1.receiveQueue =
        (readFromHost t dev callback w).1.receiveQueue ∧
      (readFromHost t (readFromHost t dev callback w).1 callback2
          (readFromHost t dev callback w).2).2.trace =
        (readFromHost t dev callback w).2.trace ++
          [Event.HandleBusy (readFromHost t dev callback w).1.hostToDeviceHandle false,
           Event.GenRead dev.outEndpoint dev.outEndpointSize]) := by
  have hzero : (readFromHost t dev callback w).1.receiveBuffer 0 = 0 := by
    by_cases h0 : dev.receiveBuffer 0 = 0 <;>
      simp [readFromHost, pollBusy, hidle, h0, armForRead]
  have hep : (readFromHost t dev callback w).1.outEndpoint = dev.outEndpoint ∧
      (readFromHost t dev callback w).1.outEndpointSize = dev.outEndpointSize := by
    by_cases h0 : dev.receiveBuffer 0 = 0 <;>
      simp [readFromHost, pollBusy, hidle, h0, armForRead]
  refine ⟨hzero, fun h2 => ?_⟩
  have h := readFromHost_zero_first t (readFromHost t dev callback w).1 callback2
    (readFromHost t dev callback w).2 h2 hzero
  rw [hep.1, hep.2] at h
  exact ⟨h.1, h.2.1⟩

/-- Witness of C10: the sample device read twice on the transport that is
never busy; the packet 5, 6, 7, 8 reaches the callback once. -/
theorem readFromHost_not_fed_twice_witness :
    (idleDevice.HandleBusy (sampleDevice true []).hostToDeviceHandle ()).1 = false ∧
    (readFromHost idleDevice (sampleDevice true []) (fun _ => false) ⟨(), []⟩).1.receiveBuffer
      0 = 0 ∧
    (readFromHost idleDevice
      (readFromHost idleDevice (sampleDevice true []) (fun _ => false) ⟨(), []⟩).1
      (fun _ => false)
      (readFromHost idleDevice (sampleDevice true []) (fun _ => false) ⟨(), []⟩).2).2.trace =
      [Event.HandleBusy 0 false, Event.callback [5, 6, 7], Event.GenRead 2 4,
       Event.HandleBusy 9 false, Event.GenRead 2 4] :=
  ⟨rfl,
    (readFromHost_not_fed_twice idleDevice (sampleDevice true []) (fun _ => false)
      (fun _ => false) ⟨(), []⟩ rfl).1,
    ((readFromHost_not_fed_twice idleDevice (sampleDevice true []) (fun _ => false)
      (fun _ => false) ⟨(), []⟩ rfl).2 rfl).2⟩

end OpenXC
